import Mathlib

/-!
Verification development for the `apiserver` Go package (gford1000-go/apiserver).

Go strings are modelled as `List Char` (the relevant strings are ASCII, where Go's
byte slicing coincides with character slicing); Go maps as association lists;
fallible / panicking Go functions return `Option` or `Except`.

The embedded revision is the current one: `spec.go` (the `PathVariableRetriever`
based `APISpecification`), the `Config` built on `validPrefix`, and the `Server`
whose `init` takes a `*Config` and whose subrouters use `Methods("GET")` /
`Methods("POST")`.
-/

namespace Apiserver

/-- Models Go `strings.ToLower` on an ASCII string. -/
def goToLower (s : List Char) : List Char := s.map Char.toLower

/-- Holds on ASCII `[a-z]`. -/
def isLowerAlpha (c : Char) : Bool := 'a' ≤ c && c ≤ 'z'

/-- Holds on ASCII `[a-z0-9]`. -/
def isLowerAlnum (c : Char) : Bool := isLowerAlpha c || ('0' ≤ c && c ≤ '9')

/-- Matcher for the regex fragment `[a-z0-9]*[/]?$`. -/
def matchTail : List Char → Bool
  | [] => true
  | ['/'] => true
  | c :: rest => isLowerAlnum c && matchTail rest

/-- Matcher for the regex fragment `[a-z][a-z0-9]*[/]?$`. -/
def matchCore : List Char → Bool
  | [] => false
  | c :: rest => isLowerAlpha c && matchTail rest

/-- Matcher for the Go regex `^[/]?[a-z][a-z0-9]*[/]?$` used by
`validPrefix` and `Config.NewSpecification`. -/
def pfxRegexMatch : List Char → Bool
  | [] => false
  | '/' :: rest => matchCore rest
  | l => matchCore l

/-- Models `validPrefix(prefix string, requireTrailingSlash bool) string`.
`none` models the panic on a regex mismatch.  The two slash guards are
translated exactly as written in Go: `prefix[0:] != "/"` compares the WHOLE
string against `"/"`, and `prefix[:len(prefix)-1] != "/"` compares
all-but-the-last-character against `"/"`. -/
def validPfx (p : List Char) (requireTrailingSlash : Bool) : Option (List Char) :=
  let q := goToLower p
  if pfxRegexMatch q then
    let q1 := if q ≠ ['/'] then '/' :: q else q
    let q2 := if requireTrailingSlash && q1.dropLast ≠ ['/'] then q1 ++ ['/'] else q1
    some q2
  else none

/-! ### strconv -/

/-- A Go `error` value arising in this package. -/
inductive GoError where
  /-- A `strconv` `*NumError` with `ErrSyntax` on input `s`. -/
  | convError (s : List Char)
  /-- A `strconv` `*NumError` with `ErrRange` on input `s`. -/
  | rangeError (s : List Char)
  /-- The `fmt.Errorf("unable to convert to type %v", ...)` error from `getRetriever`. -/
  | unsupportedType
  deriving DecidableEq

/-- Decimal digit accumulation: `some` of the value when every character is an
ASCII digit, `none` otherwise. -/
def digitsVal (acc : Nat) : List Char → Option Nat
  | [] => some acc
  | c :: rest =>
      if '0' ≤ c && c ≤ '9' then digitsVal (acc * 10 + (c.toNat - 48)) rest
      else none

/-- Syntactic part of Go `strconv.ParseInt(s, 10, _)`: an optional sign followed
by one or more ASCII digits; `none` models `ErrSyntax`. -/
def parseDecimal (s : List Char) : Option Int :=
  match s with
  | [] => none
  | '+' :: rest =>
      if rest = [] then none else (digitsVal 0 rest).map (fun n => (n : Int))
  | '-' :: rest =>
      if rest = [] then none else (digitsVal 0 rest).map (fun n => -(n : Int))
  | l => (digitsVal 0 l).map (fun n => (n : Int))

/-- Models Go `strconv.ParseInt(s, 10, bitSize)`: returns the parsed value and
an optional error; on a syntax error the value is 0, on a range error the value
is clamped to the bit-size bounds (as Go does). -/
def goParseInt (s : List Char) (bitSize : Nat) : Int × Option GoError :=
  match parseDecimal s with
  | none => (0, some (GoError.convError s))
  | some v =>
      if v < -(2 ^ (bitSize - 1)) then (-(2 ^ (bitSize - 1)), some (GoError.rangeError s))
      else if v > 2 ^ (bitSize - 1) - 1 then (2 ^ (bitSize - 1) - 1, some (GoError.rangeError s))
      else (v, none)

/-- Models Go `strconv.Atoi` = `ParseInt(s, 10, 0)` with the platform int
being 64-bit. -/
def goAtoi (s : List Char) : Int × Option GoError := goParseInt s 64

/-! ### APISpecification (spec.go) -/

/-- Models `APIPath`: a path template paired with a handler.  Caller-supplied
`APIHandler` values are opaque at this layer, modelled by a numeric id. -/
structure APIPath where
  path : List Char
  handler : Nat
  deriving DecidableEq

/-- Models `APISpecification` (the logger field is dropped; the Go field `prefix`
is called `pfx` here). -/
structure APISpecification where
  pfx : List Char
  gets : List APIPath
  posts : List APIPath
  deriving DecidableEq

/-- Models `(*APISpecification).AddGetPath`: lower-cases the path, panics
(`none`) when the path is already registered among the GET paths, otherwise
appends it. -/
def APISpecification.AddGetPath (a : APISpecification) (path : List Char) (h : Nat) :
    Option APISpecification :=
  let lowered := goToLower path
  if lowered ∈ a.gets.map APIPath.path then none
  else some { a with gets := a.gets ++ [⟨lowered, h⟩] }

/-- Models `(*APISpecification).AddPostPath`: lower-cases the path, panics
(`none`) when the path is already registered among the POST paths, otherwise
appends it. -/
def APISpecification.AddPostPath (a : APISpecification) (path : List Char) (h : Nat) :
    Option APISpecification :=
  let lowered := goToLower path
  if lowered ∈ a.posts.map APIPath.path then none
  else some { a with posts := a.posts ++ [⟨lowered, h⟩] }

/-! ### Handlers and Config -/

/-- What an `http.HandlerFunc` at this layer writes: a status code and a body.
A handler that never calls `WriteHeader` gets status 200 on first write. -/
structure Response where
  status : Nat
  body : List Char
  deriving DecidableEq

/-- Models the default `healthCheck` handler:
`json.NewEncoder(w).Encode(map[string]bool{"ok": true})` writes the compact
JSON object followed by a newline, with the implicit 200 status. -/
def healthCheck : Response :=
  { status := 200, body := "\x7b\"ok\":true\x7d\n".data }

/-- Models `Config` (the logger field is dropped; Go fields `apiPrefix` and `prefix`
are called `apiPfx` / `pfx` here).  `hc` is the configured health-check
handler, modelled by the `Response` it writes. -/
structure Config where
  apiPfx : List Char
  domain : List Char
  exitTimeout : Int
  hc : Response
  healthPath : List Char
  port : List Char
  readTimeout : Int
  scheme : List Char
  specs : List APISpecification
  subdomain : List Char
  writeTimeout : Int
  deriving DecidableEq

/-- Models `NewConfig()` with no environment variables set, so every
`getDefaultableEnv` lookup yields its default: port "8080", domain
"localhost", empty subdomain, scheme "http", `ApiPathPrefix("api")`
(which applies `validPrefix` with a trailing slash) and
`HealthcheckPath("health")` (which applies `validPrefix` without one),
write/read timeouts 15, exit timeout 10, default health check. -/
def NewConfig : Config :=
  { apiPfx := ( validPfx "api".data true).getD []
    domain := "localhost".data
    exitTimeout := 10
    hc := healthCheck
    healthPath := ( validPfx "health".data false).getD []
    port := "8080".data
    readTimeout := 15
    scheme := "http".data
    specs := []
    subdomain := []
    writeTimeout := 15 }

/-- Models `(*Config).NewSpecification(prefix string) *APISpecification` of the
current revision: panics (`none`) on an empty prefix or a regex mismatch,
normalizes the prefix via `validPrefix(prefix, true)`, then unconditionally
creates a fresh specification and appends it to `c.specs`.  Returns the new
specification together with the updated `Config`. -/
def Config.NewSpecification (c : Config) (p : List Char) :
    Option (APISpecification × Config) :=
  if p.length = 0 then none
  else
    match validPfx p true with
    | none => none
    | some q =>
        let spec : APISpecification := { pfx := q, gets := [], posts := [] }
        some (spec, { c with specs := c.specs ++ [spec] })

/-! ### Server: path variable retrieval (getRetriever) -/

/-- A Go `interface{}` value of the dynamic types relevant to
`getRetriever`.  `vother` stands for a value of any dynamic type the
retriever does not recognize. -/
inductive GoValue where
  | vnil
  | vstring (s : List Char)
  | vint (i : Int)
  | vintPtr (i : Int)
  | vint32 (i : Int)
  | vint32Ptr (i : Int)
  | vint64 (i : Int)
  | vint64Ptr (i : Int)
  | vother (tag : Nat)
  deriving DecidableEq

/-- Go map lookup on an association list (`mux.Vars` result). -/
def lookupVar (m : List (List Char × List Char)) (k : List Char) :
    Option (List Char) :=
  match m with
  | [] => none
  | kv :: rest => if kv.1 = k then some kv.2 else lookupVar rest k

/-- Models the closure returned by `(*Server).getRetriever`: `m` is the
`mux.Vars(req)` map; returns the `(interface{}, error)` pair.  Each branch is
translated from the Go `switch defaultValue.(type)`; note that the `int32`
and `*int32` branches return `strconv.ParseInt`'s `int64` result (and a
pointer to it) directly, as the Go code does. -/
def getRetriever (m : List (List Char × List Char)) (variableName : List Char)
    (defaultValue : GoValue) : GoValue × Option GoError :=
  let name := goToLower variableName
  match lookupVar m name with
  | none => (defaultValue, none)
  | some s =>
    match defaultValue with
    | GoValue.vnil => (GoValue.vstring s, none)
    | GoValue.vstring _ => (GoValue.vstring s, none)
    | GoValue.vint _ =>
        let r := goAtoi s
        (GoValue.vint r.1, r.2)
    | GoValue.vintPtr _ =>
        let r := goAtoi s
        match r.2 with
        | some err => (GoValue.vnil, some err)
        | none => (GoValue.vintPtr r.1, none)
    | GoValue.vint32 _ =>
        let r := goParseInt s 32
        (GoValue.vint64 r.1, r.2)
    | GoValue.vint32Ptr _ =>
        let r := goParseInt s 32
        match r.2 with
        | some err => (GoValue.vnil, some err)
        | none => (GoValue.vint64Ptr r.1, none)
    | GoValue.vint64 _ =>
        let r := goParseInt s 64
        (GoValue.vint64 r.1, r.2)
    | GoValue.vint64Ptr _ =>
        let r := goParseInt s 64
        match r.2 with
        | some err => (GoValue.vnil, some err)
        | none => (GoValue.vint64Ptr r.1, none)
    | GoValue.vother _ => (GoValue.vnil, some GoError.unsupportedType)

/-! ### Server: initialisation -/

/-- A handler registered on a router: either a wrapped `APIHandler` (carrying
its opaque id) or a plain `http.HandlerFunc` such as the health check. -/
inductive RegHandler where
  | apiH (id : Nat)
  | funcH (resp : Response)
  deriving DecidableEq

/-- A route registered on a (sub)router, with its full path template, which
gorilla/mux forms by concatenating the enclosing `PathPrefix` templates with
the route's own path. -/
structure RouteEntry where
  template : List Char
  handler : RegHandler
  deriving DecidableEq

/-- The matchers a subrouter was built with. -/
structure SubrouterSpec where
  pathPfx : List Char
  methods : List (List Char)
  headersRegexp : List (List Char × List Char)
  schemes : List (List Char)
  deriving DecidableEq

/-- The routing state produced by `(*Server).init`. -/
structure RouterModel where
  hostScoped : Option (List Char)
  getSub : SubrouterSpec
  postSub : SubrouterSpec
  getRoutes : List RouteEntry
  postRoutes : List RouteEntry
  deriving DecidableEq

/-- The error returned by `(*Server).init` (its only error path). -/
inductive GoInitError where
  /-- The `fmt.Errorf("attempt to register %s twice", prefix)` error. -/
  | duplicateRegistration (p : List Char)
  deriving DecidableEq

/-- Models `(*Server).addMethodSpecification(prefix, r, paths)`: when `paths`
is non-empty it creates a subrouter of `r` (whose own prefix is `parentPfx`)
for `pfx` and registers each path on it; the resulting full templates are
`parentPfx ++ pfx ++ path`. -/
def addMethodSpecification (parentPfx : List Char) (pfx : List Char)
    (paths : List APIPath) : List RouteEntry :=
  if paths.length > 0 then
    paths.map (fun q => ⟨parentPfx ++ pfx ++ q.path, RegHandler.apiH q.handler⟩)
  else []

/-- The `for _, spec := range config.specs` loop of `(*Server).init`:
checks each specification's prefix against the already-`registered` set,
failing with the duplicate-registration error, and otherwise records the
prefix and applies `addSpecification` (which calls `addMethodSpecification`
for the GET and POST path lists). -/
def registerSpecs (apiPfx : List Char) :
    List APISpecification → List (List Char) → List RouteEntry → List RouteEntry →
    Except GoInitError (List RouteEntry × List RouteEntry)
  | [], _, g, p => Except.ok (g, p)
  | spec :: rest, registered, g, p =>
    if spec.pfx ∈ registered then
      Except.error (GoInitError.duplicateRegistration spec.pfx)
    else
      registerSpecs apiPfx rest (spec.pfx :: registered)
        (g ++ addMethodSpecification apiPfx spec.pfx spec.gets)
        (p ++ addMethodSpecification apiPfx spec.pfx spec.posts)

/-- Go `time.Second` in nanoseconds (`time.Duration` counts nanoseconds). -/
def second : Int := 1000000000

/-- Go's `time.Duration(n)` conversion: `n` interpreted as nanoseconds. -/
def timeDuration (n : Int) : Int := n

/-- The server state produced by `(*Server).init`: the `http.Server` address
and timeouts (in nanoseconds, as `time.Duration`), the stored `exitTimeout`
(the raw seconds int from the config), and the composed router. -/
structure ServerModel where
  addr : List Char
  writeTimeoutNs : Int
  readTimeoutNs : Int
  exitTimeout : Int
  router : RouterModel
  deriving DecidableEq

/-- Models `(*Server).init(config *Config)`: builds the host-scoped router if
the domain is not "localhost", derives the GET and POST subrouters (method,
scheme and, for POST, the `Content-Type: application/json` header matcher,
under `PathPrefix(config.apiPrefix)`), registers every specification
(failing on a duplicate prefix), then registers the health check at
`fmt.Sprintf("/%s", config.healthPath)` on the GET subrouter, and finally
fills in the `http.Server` with its address and read/write timeouts
(`time.Duration(seconds) * time.Second`). -/
def Server.init (config : Config) : Except GoInitError ServerModel :=
  let hostScoped : Option (List Char) :=
    if goToLower config.domain ≠ "localhost".data then
      some (config.subdomain ++ '.' :: config.domain)
    else none
  let getSub : SubrouterSpec :=
    { pathPfx := config.apiPfx, methods := ["GET".data],
      headersRegexp := [], schemes := [config.scheme] }
  let postSub : SubrouterSpec :=
    { pathPfx := config.apiPfx, methods := ["POST".data],
      headersRegexp := [("Content-Type".data, "application/json".data)],
      schemes := [config.scheme] }
  match registerSpecs config.apiPfx config.specs [] [] [] with
  | Except.error e => Except.error e
  | Except.ok gp =>
    let healthEntry : RouteEntry :=
      ⟨config.apiPfx ++ '/' :: config.healthPath, RegHandler.funcH config.hc⟩
    let router : RouterModel :=
      { hostScoped := hostScoped, getSub := getSub, postSub := postSub,
        getRoutes := gp.1 ++ [healthEntry], postRoutes := gp.2 }
    Except.ok
      { addr := "127.0.0.1:".data ++ config.port,
        writeTimeoutNs := timeDuration config.writeTimeout * second,
        readTimeoutNs := timeDuration config.readTimeout * second,
        exitTimeout := config.exitTimeout,
        router := router }

/-- Models `NewServer(config Config) (*Server, error)`: runs `init` once and
returns the initialised server or the error. -/
def NewServer (config : Config) : Except GoInitError ServerModel :=
  Server.init config

/-- The timeout, in nanoseconds, of the shutdown deadline context that
`(*Server).Start` creates after receiving the interrupt signal:
`context.WithTimeout(context.Background(), time.Duration(s.exitTimeout))`. -/
def ServerModel.startShutdownTimeoutNs (s : ServerModel) : Int :=
  timeDuration s.exitTimeout

/-! ### Lemmas about prefix normalization -/

theorem pfxRegexMatch_ne_nil {q : List Char} (h : pfxRegexMatch q = true) : q ≠ [] := by
  intro hq
  subst hq
  simp [pfxRegexMatch] at h

theorem pfxRegexMatch_ne_slash {q : List Char} (h : pfxRegexMatch q = true) :
    q ≠ ['/'] := by
  intro hq
  subst hq
  simp [pfxRegexMatch, matchCore] at h

theorem validPfx_of_single {p : List Char} {c : Char} (hq : goToLower p = [c])
    (hm : pfxRegexMatch [c] = true) : validPfx p true = some ['/', c] := by
  have hne : ([c] : List Char) ≠ ['/'] := by
    intro hcs
    exact pfxRegexMatch_ne_slash hm hcs
  simp only [validPfx, hq, hm, if_pos, hne, ne_eq, not_false_eq_true, if_true]
  have hdrop : (['/', c] : List Char).dropLast = ['/'] := rfl
  simp [hdrop]

theorem validPfx_of_long {p : List Char} {q : List Char} (hq : goToLower p = q)
    (hm : pfxRegexMatch q = true) (hlen : 2 ≤ q.length) :
    validPfx p true = some ('/' :: q ++ ['/']) := by
  have hne : q ≠ ['/'] := pfxRegexMatch_ne_slash hm
  have hdrop : ('/' :: q).dropLast ≠ ['/'] := by
    intro hd
    have : ('/' :: q).dropLast.length = (['/'] : List Char).length := by rw [hd]
    simp [List.length_dropLast] at this
    omega
  simp [validPfx, hq, hm, hne, hdrop]

theorem validPfx_some_match {p r : List Char} (h : validPfx p true = some r) :
    pfxRegexMatch (goToLower p) = true := by
  by_cases hm : pfxRegexMatch (goToLower p) = true
  · exact hm
  · simp [validPfx, hm] at h

/-- C5: the claim as stated is false: a single-letter prefix such as `"a"`
matches `^[/]?[a-z][a-z0-9]*[/]?$`, yet normalization with a trailing slash
required returns `"/a"`, which does not end with `/` (the trailing-slash
guard compares all-but-the-last-character against `"/"`). -/
theorem claim_C5_counterexample :
    pfxRegexMatch "a".data = true ∧ validPfx "a".data true = some "/a".data ∧
      ("/a".data).getLast? ≠ some '/' := by
  decide

/-- C5 (amended): for every prefix matching `^[/]?[a-z][a-z0-9]*[/]?$`,
normalization with a trailing slash required returns a string that begins
with `/`; it also ends with `/` whenever the prefix has at least two
characters (single-letter prefixes are the only exception). -/
theorem claim_C5_amended (p r : List Char) (h : validPfx p true = some r) :
    r.head? = some '/' ∧ (2 ≤ p.length → r.getLast? = some '/') := by
  have hm : pfxRegexMatch (goToLower p) = true := validPfx_some_match h
  have hlenp : (goToLower p).length = p.length := List.length_map _ _
  rcases hq : goToLower p with _ | ⟨c, t⟩
  · exact absurd (hq ▸ hm) (by simp [pfxRegexMatch])
  rcases t with _ | ⟨c2, t2⟩
  · have hr : validPfx p true = some ['/', c] := validPfx_of_single hq (hq ▸ hm)
    rw [h] at hr
    obtain rfl : r = ['/', c] := by injection hr
    refine ⟨rfl, fun h2 => absurd h2 ?_⟩
    rw [hq] at hlenp
    simp at hlenp
    omega
  · have hr : validPfx p true = some ('/' :: (c :: c2 :: t2) ++ ['/']) :=
      validPfx_of_long hq (hq ▸ hm) (by simp)
    rw [h] at hr
    obtain rfl : r = '/' :: (c :: c2 :: t2) ++ ['/'] := by injection hr
    exact ⟨rfl, fun _ => List.getLast?_concat _⟩

/-- Witness for C5 (amended) at the concrete prefix `"ab"`. -/
theorem claim_C5_amended_witness :
    ("/ab/".data).head? = some '/' ∧ (2 ≤ ("ab".data).length → ("/ab/".data).getLast? = some '/') :=
  claim_C5_amended "ab".data "/ab/".data (by decide)

/-- C10: for every prefix matching the regex that already begins with `/`,
normalization (trailing slash required) prepends another `/`, so the result
begins with `//`; moreover the result always differs from the input, so
normalization is not idempotent on slash-initial inputs. -/
theorem claim_C10 (p r : List Char) (h : validPfx p true = some r)
    (hs : p.head? = some '/') : r.take 2 = ['/', '/'] ∧ r ≠ p := by
  have hm : pfxRegexMatch (goToLower p) = true := validPfx_some_match h
  rcases p with _ | ⟨c0, t0⟩
  · simp at hs
  obtain rfl : c0 = '/' := by simpa using hs
  have hq : goToLower ('/' :: t0) = '/' :: goToLower t0 := by
    simp [goToLower]
  rcases ht : goToLower t0 with _ | ⟨c1, t1⟩
  · rw [ht] at hq
    rw [hq] at hm
    exact absurd hm (by simp [pfxRegexMatch, matchCore])
  · rw [ht] at hq
    have hr : validPfx ('/' :: t0) true = some ('/' :: ('/' :: c1 :: t1) ++ ['/']) :=
      validPfx_of_long hq (hq ▸ hm) (by simp)
    rw [h] at hr
    obtain rfl : r = '/' :: ('/' :: c1 :: t1) ++ ['/'] := by injection hr
    refine ⟨rfl, fun heq => ?_⟩
    have hlen := congrArg List.length heq
    have hlent : (goToLower t0).length = t0.length := List.length_map _ _
    rw [ht] at hlent
    simp at hlen
    simp at hlent
    omega

/-- Witness for C10 at the concrete prefix `"/v1"`, normalized to `"//v1/"`. -/
theorem claim_C10_witness :
    ("//v1/".data).take 2 = ['/', '/'] ∧ "//v1/".data ≠ "/v1".data :=
  claim_C10 "/v1".data "//v1/".data (by decide) (by decide)

/-! ### Lifecycle, specification registration and retrieval claims -/

/-- C1 (code bug): with the default configuration (exit timeout 10 seconds),
the shutdown deadline context created by `Start` has a timeout of
`time.Duration(s.exitTimeout)` = 10 nanoseconds, not 10 seconds — the
`* time.Second` factor applied to the read/write timeouts is missing, so the
claimed "timeout equals t seconds" fails on the code. -/
theorem claim_C1_code_bug :
    (NewServer NewConfig).map ServerModel.startShutdownTimeoutNs = Except.ok 10 ∧
      (NewServer NewConfig).map ServerModel.writeTimeoutNs = Except.ok (15 * second) ∧
      (10 : Int) ≠ 10 * second :=
  ⟨rfl, rfl, by decide⟩

/-- C2 (code bug): starting from a fresh `Config`, registering prefix `"v1"`
and then registering `"v1"` again appends a second specification with the
same normalized prefix `"/v1/"` instead of returning the existing one, so
the get-or-create behaviour promised by the claim (and by the function's own
doc comment) does not hold. -/
theorem claim_C2_code_bug :
    (Config.NewSpecification NewConfig "v1".data).map
        (fun r => (r.2.specs.length, r.2.specs.map APISpecification.pfx)) =
      some (1, ["/v1/".data]) ∧
    ((Config.NewSpecification NewConfig "v1".data).bind
        (fun r => Config.NewSpecification r.2 "v1".data)).map
        (fun r => (r.2.specs.length, r.2.specs.map APISpecification.pfx)) =
      some (2, ["/v1/".data, "/v1/".data]) := by
  decide

/-- C9 (code bug): with variable `"v"` present as `"5"`, a default of dynamic
type `int32` yields an `int64` result (the code returns `strconv.ParseInt`'s
`int64` directly), and a `*int32` default yields a `*int64`; only the 64-bit
defaults get results of the default's own type. -/
theorem claim_C9_code_bug :
    getRetriever [("v".data, "5".data)] "v".data (GoValue.vint32 7) =
        (GoValue.vint64 5, none) ∧
      getRetriever [("v".data, "5".data)] "v".data (GoValue.vint32Ptr 7) =
        (GoValue.vint64Ptr 5, none) ∧
      getRetriever [("v".data, "5".data)] "v".data (GoValue.vint64 7) =
        (GoValue.vint64 5, none) ∧
      getRetriever [("v".data, "5".data)] "v".data (GoValue.vint64Ptr 7) =
        (GoValue.vint64Ptr 5, none) ∧
      GoValue.vint64 (5 : Int) ≠ GoValue.vint32 (5 : Int) := by
  decide

/-- C4: for every variable map and name, (a) a variable absent after case
normalization yields the supplied default with no error, whatever the
default; (b) a present variable with an `int` default yields the parsed
integer when the string parses in 64-bit range, and a conversion error when
it is non-numeric; (c) a present variable with a default of an unrecognized
dynamic type yields the unsupported-type error. -/
theorem claim_C4 (m : List (List Char × List Char)) (n s : List Char)
    (d : GoValue) (i v : Int) (tag : Nat) :
    (lookupVar m (goToLower n) = none → getRetriever m n d = (d, none)) ∧
    (lookupVar m (goToLower n) = some s →
      (parseDecimal s = some v → -(2 ^ 63) ≤ v → v ≤ 2 ^ 63 - 1 →
        getRetriever m n (GoValue.vint i) = (GoValue.vint v, none)) ∧
      (parseDecimal s = none →
        getRetriever m n (GoValue.vint i) =
          (GoValue.vint 0, some (GoError.convError s))) ∧
      getRetriever m n (GoValue.vother tag) =
        (GoValue.vnil, some GoError.unsupportedType)) := by
  refine ⟨fun habs => ?_, fun hpres => ⟨fun hv hlo hhi => ?_, fun hv => ?_, ?_⟩⟩
  · simp only [getRetriever, habs]
  · have hpow : ((2 : Int) ^ 63) = 9223372036854775808 := by norm_num
    rw [hpow] at hlo hhi
    have hAtoi : goAtoi s = (v, none) := by
      simp only [goAtoi, goParseInt, hv]
      rw [show ((2 : Int) ^ (64 - 1)) = 9223372036854775808 from by norm_num]
      rw [if_neg (by omega), if_neg (by omega)]
    simp only [getRetriever, hpres, hAtoi]
  · have hAtoi : goAtoi s = (0, some (GoError.convError s)) := by
      simp only [goAtoi, goParseInt, hv]
    simp only [getRetriever, hpres, hAtoi]
  · simp only [getRetriever, hpres]

/-- Witness for C4: variable `"x"` present as `"12"` (looked up as `"X"`),
absent variable, non-numeric string, and an unrecognized default type. -/
theorem claim_C4_witness :
    getRetriever [] "x".data (GoValue.vother 3) = (GoValue.vother 3, none) ∧
      getRetriever [("x".data, "12".data)] "X".data (GoValue.vint 0) =
        (GoValue.vint 12, none) ∧
      getRetriever [("x".data, "zz".data)] "x".data (GoValue.vint 0) =
        (GoValue.vint 0, some (GoError.convError "zz".data)) ∧
      getRetriever [("x".data, "12".data)] "x".data (GoValue.vother 3) =
        (GoValue.vnil, some GoError.unsupportedType) :=
  ⟨(claim_C4 [] "x".data "12".data (GoValue.vother 3) 0 12 3).1 (by decide),
   ((claim_C4 [("x".data, "12".data)] "X".data "12".data (GoValue.vint 0) 0 12 3).2
     (by decide)).1 (by decide) (by decide) (by decide),
   (((claim_C4 [("x".data, "zz".data)] "x".data "zz".data (GoValue.vint 0) 0 12 3).2
     (by decide)).2).1 (by decide),
   (((claim_C4 [("x".data, "12".data)] "x".data "12".data (GoValue.vint 0) 0 12 3).2
     (by decide)).2).2⟩

/-- C7: on a specification where the lower-cased path is not yet registered,
the first `AddGetPath` (resp. `AddPostPath`) call stores the path in
lower-case, and a second call with any path equal after lower-casing panics
(`none`) instead of adding a second entry. -/
theorem claim_C7 (a : APISpecification) (p q : List Char) (h1 h2 : Nat)
    (hg : goToLower p ∉ a.gets.map APIPath.path)
    (hp : goToLower p ∉ a.posts.map APIPath.path)
    (heq : goToLower q = goToLower p) :
    (∃ a', a.AddGetPath p h1 = some a' ∧
      a'.gets = a.gets ++ [⟨goToLower p, h1⟩] ∧ a'.AddGetPath q h2 = none) ∧
    (∃ a', a.AddPostPath p h1 = some a' ∧
      a'.posts = a.posts ++ [⟨goToLower p, h1⟩] ∧ a'.AddPostPath q h2 = none) := by
  constructor
  · refine ⟨{ a with gets := a.gets ++ [⟨goToLower p, h1⟩] }, ?_, rfl, ?_⟩
    · unfold APISpecification.AddGetPath
      simp [hg]
    · unfold APISpecification.AddGetPath
      simp [heq]
  · refine ⟨{ a with posts := a.posts ++ [⟨goToLower p, h1⟩] }, ?_, rfl, ?_⟩
    · unfold APISpecification.AddPostPath
      simp [hp]
    · unfold APISpecification.AddPostPath
      simp [heq]

/-- Witness for C7: adding `"/Ping"` and then `"/ping"` to a fresh
specification, for both methods. -/
theorem claim_C7_witness :
    (∃ a', APISpecification.AddGetPath ⟨"/v1/".data, [], []⟩ "/Ping".data 1 = some a' ∧
      a'.gets = [] ++ [⟨goToLower "/Ping".data, 1⟩] ∧
      a'.AddGetPath "/ping".data 2 = none) ∧
    (∃ a', APISpecification.AddPostPath ⟨"/v1/".data, [], []⟩ "/Ping".data 1 = some a' ∧
      a'.posts = [] ++ [⟨goToLower "/Ping".data, 1⟩] ∧
      a'.AddPostPath "/ping".data 2 = none) :=
  claim_C7 ⟨"/v1/".data, [], []⟩ "/Ping".data "/ping".data 1 2
    (by decide) (by decide) (by decide)

/-! ### Lemmas about server initialisation -/

theorem regSpecs_isError_iff (A : List Char) (specs : List APISpecification)
    (reg : List (List Char)) (g p : List RouteEntry) (hreg : reg.Nodup) :
    (∃ q, registerSpecs A specs reg g p =
        Except.error (GoInitError.duplicateRegistration q)) ↔
      ¬ (reg ++ specs.map APISpecification.pfx).Nodup := by
  induction specs generalizing reg g p with
  | nil =>
      simp [registerSpecs, hreg]
  | cons s rest ih =>
      by_cases hmem : s.pfx ∈ reg
      · simp only [registerSpecs, if_pos hmem, List.map_cons]
        constructor
        · intro _ hnd
          rw [List.nodup_append] at hnd
          exact hnd.2.2 hmem (List.mem_cons_self _ _)
        · intro _
          exact ⟨s.pfx, rfl⟩
      · simp only [registerSpecs, if_neg hmem, List.map_cons]
        have hreg' : (s.pfx :: reg).Nodup := List.nodup_cons.mpr ⟨hmem, hreg⟩
        rw [ih (s.pfx :: reg) _ _ hreg']
        apply not_congr
        exact (List.perm_middle.nodup_iff).symm

theorem NewServer_error_iff (config : Config) :
    (∃ q, NewServer config = Except.error (GoInitError.duplicateRegistration q)) ↔
      (∃ q, registerSpecs config.apiPfx config.specs [] [] [] =
        Except.error (GoInitError.duplicateRegistration q)) := by
  cases hr : registerSpecs config.apiPfx config.specs [] [] [] with
  | error e =>
      cases e with
      | duplicateRegistration q =>
          simp only [NewServer, Server.init, hr]
          exact ⟨fun _ => ⟨q, rfl⟩, fun _ => ⟨q, rfl⟩⟩
  | ok gp =>
      simp only [NewServer, Server.init, hr]
      constructor
      · rintro ⟨q, hq⟩
        exact absurd hq (by simp)
      · rintro ⟨q, hq⟩
        exact absurd hq (by simp)

theorem NewServer_ok_of_nodup (config : Config)
    (hnd : (config.specs.map APISpecification.pfx).Nodup) :
    ∃ sm, NewServer config = Except.ok sm := by
  cases hns : NewServer config with
  | ok sm => exact ⟨sm, rfl⟩
  | error e =>
      cases e with
      | duplicateRegistration q =>
          have h := (NewServer_error_iff config).mp ⟨q, hns⟩
          have h2 := (regSpecs_isError_iff config.apiPfx config.specs [] [] []
            List.nodup_nil).mp h
          rw [List.nil_append] at h2
          exact absurd hnd h2

/-- C6: server initialization (and hence `NewServer`) returns the
duplicate-registration error exactly when the configuration's specification
list carries two distinct specifications with the same (normalized, stored)
prefix; with all-distinct prefixes it returns an initialised server. -/
theorem claim_C6 (config : Config) :
    ((∃ q, NewServer config = Except.error (GoInitError.duplicateRegistration q)) ↔
      ¬ (config.specs.map APISpecification.pfx).Nodup) ∧
    ((config.specs.map APISpecification.pfx).Nodup →
      ∃ sm, NewServer config = Except.ok sm) := by
  constructor
  · rw [NewServer_error_iff]
    have hbase := regSpecs_isError_iff config.apiPfx config.specs [] [] []
      List.nodup_nil
    rw [List.nil_append] at hbase
    exact hbase
  · exact NewServer_ok_of_nodup config

/-- A configuration holding two specifications with the same prefix. -/
def cfgDup : Config :=
  { NewConfig with specs := [⟨"/v1/".data, [], []⟩, ⟨"/v1/".data, [], []⟩] }

/-- A configuration holding two specifications with distinct prefixes. -/
def cfgDistinct : Config :=
  { NewConfig with specs := [⟨"/v1/".data, [], []⟩, ⟨"/v2/".data, [], []⟩] }

/-- Witness for C6: duplicate prefixes `"/v1/", "/v1/"` fail, distinct
prefixes `"/v1/", "/v2/"` initialise. -/
theorem claim_C6_witness :
    (∃ q, NewServer cfgDup = Except.error (GoInitError.duplicateRegistration q)) ∧
      (∃ sm, NewServer cfgDistinct = Except.ok sm) :=
  ⟨(claim_C6 cfgDup).1.mpr (by decide), (claim_C6 cfgDistinct).2 (by decide)⟩

theorem mem_addMethodSpecification {q : APIPath} {paths : List APIPath}
    (hq : q ∈ paths) (A pfxv : List Char) :
    (⟨A ++ pfxv ++ q.path, RegHandler.apiH q.handler⟩ : RouteEntry) ∈
      addMethodSpecification A pfxv paths := by
  unfold addMethodSpecification
  rw [if_pos (List.length_pos.mpr (List.ne_nil_of_mem hq))]
  exact List.mem_map.mpr ⟨q, hq, rfl⟩

theorem regSpecs_ok_mem (A : List Char) (specs : List APISpecification)
    (reg : List (List Char)) (g0 p0 g p : List RouteEntry)
    (h : registerSpecs A specs reg g0 p0 = Except.ok (g, p)) :
    (∀ e, e ∈ g0 → e ∈ g) ∧ (∀ e, e ∈ p0 → e ∈ p) ∧
    ∀ s ∈ specs,
      (∀ q ∈ s.gets,
        (⟨A ++ s.pfx ++ q.path, RegHandler.apiH q.handler⟩ : RouteEntry) ∈ g) ∧
      (∀ q ∈ s.posts,
        (⟨A ++ s.pfx ++ q.path, RegHandler.apiH q.handler⟩ : RouteEntry) ∈ p) := by
  induction specs generalizing reg g0 p0 with
  | nil =>
      simp only [registerSpecs, Except.ok.injEq] at h
      rw [Prod.mk.injEq] at h
      obtain ⟨rfl, rfl⟩ := h
      exact ⟨fun e he => he, fun e he => he, by simp⟩
  | cons s rest ih =>
      simp only [registerSpecs] at h
      by_cases hmem : s.pfx ∈ reg
      · rw [if_pos hmem] at h
        exact absurd h (by simp)
      · rw [if_neg hmem] at h
        obtain ⟨hg0, hp0, hrest⟩ := ih _ _ _ h
        refine ⟨fun e he => hg0 e (List.mem_append_left _ he),
                fun e he => hp0 e (List.mem_append_left _ he), ?_⟩
        intro t ht
        rcases List.mem_cons.mp ht with rfl | ht'
        · exact ⟨fun q hq => hg0 _ (List.mem_append_right _
                  (mem_addMethodSpecification hq A t.pfx)),
                 fun q hq => hp0 _ (List.mem_append_right _
                  (mem_addMethodSpecification hq A t.pfx))⟩
        · exact hrest t ht'

/-- C3: on successful initialisation, the GET subrouter is built with method
filter `["GET"]` (no header requirement, configured scheme) and the POST
subrouter with method filter `["POST"]`, the `Content-Type: application/json`
header requirement and the configured scheme; and every GET/POST path of
every specification is registered at `{apiPrefix}{specPrefix}{path}` on the
corresponding subrouter. -/
theorem claim_C3 (config : Config) (sm : ServerModel)
    (h : Server.init config = Except.ok sm) :
    sm.router.getSub = SubrouterSpec.mk config.apiPfx ["GET".data] [] [config.scheme] ∧
    sm.router.postSub = SubrouterSpec.mk config.apiPfx ["POST".data]
      [("Content-Type".data, "application/json".data)] [config.scheme] ∧
    ∀ s ∈ config.specs,
      (∀ q ∈ s.gets,
        (⟨config.apiPfx ++ s.pfx ++ q.path, RegHandler.apiH q.handler⟩ : RouteEntry)
          ∈ sm.router.getRoutes) ∧
      (∀ q ∈ s.posts,
        (⟨config.apiPfx ++ s.pfx ++ q.path, RegHandler.apiH q.handler⟩ : RouteEntry)
          ∈ sm.router.postRoutes) := by
  cases hr : registerSpecs config.apiPfx config.specs [] [] [] with
  | error e =>
      simp only [Server.init, hr] at h
      exact absurd h (by simp)
  | ok gp =>
      simp only [Server.init, hr] at h
      injection h with h2
      subst h2
      obtain ⟨hg0, hp0, hspecs⟩ := regSpecs_ok_mem config.apiPfx config.specs
        [] [] [] gp.1 gp.2 hr
      refine ⟨rfl, rfl, ?_⟩
      intro s hs
      obtain ⟨hgets, hposts⟩ := hspecs s hs
      exact ⟨fun q hq => List.mem_append_left _ (hgets q hq),
             fun q hq => hposts q hq⟩

/-- A specification with one GET path and one POST path, used as witness. -/
def specW : APISpecification :=
  ⟨"/v1/".data, [⟨"/ping".data, 1⟩], [⟨"/submit".data, 2⟩]⟩

/-- The default configuration extended with `specW`. -/
def cfgW : Config := { NewConfig with specs := [specW] }

/-- The server produced by initialising `cfgW`. -/
def smW : ServerModel :=
  ServerModel.mk "127.0.0.1:8080".data (15 * second) (15 * second) 10
    (RouterModel.mk none
      (SubrouterSpec.mk "/api/".data ["GET".data] [] ["http".data])
      (SubrouterSpec.mk "/api/".data ["POST".data]
        [("Content-Type".data, "application/json".data)] ["http".data])
      [⟨"/api//v1//ping".data, RegHandler.apiH 1⟩,
       ⟨"/api///health".data, RegHandler.funcH healthCheck⟩]
      [⟨"/api//v1//submit".data, RegHandler.apiH 2⟩])

/-- Witness for C3 at the concrete configuration `cfgW`. -/
theorem claim_C3_witness :
    smW.router.getSub.methods = ["GET".data] ∧
      (⟨"/api//v1//ping".data, RegHandler.apiH 1⟩ : RouteEntry) ∈ smW.router.getRoutes ∧
      (⟨"/api//v1//submit".data, RegHandler.apiH 2⟩ : RouteEntry) ∈ smW.router.postRoutes := by
  obtain ⟨hget, _, hspecs⟩ := claim_C3 cfgW smW rfl
  refine ⟨by rw [hget], ?_, ?_⟩
  · exact (hspecs specW (by decide)).1 ⟨"/ping".data, 1⟩ (by decide)
  · exact (hspecs specW (by decide)).2 ⟨"/submit".data, 2⟩ (by decide)

/-- C8: the claim as stated is false at the default configuration: the only
GET route is registered at template `"/api///health"` (an extra `/` is
formatted in front of the already-slash-prefixed health path), which differs
from `{apiPrefix}{healthPath}` = `"/api//health"`. -/
theorem claim_C8_counterexample :
    (NewServer NewConfig).map (fun sm => sm.router.getRoutes.map RouteEntry.template) =
      Except.ok ["/api///health".data] ∧
    NewConfig.apiPfx ++ NewConfig.healthPath = "/api//health".data ∧
    "/api///health".data ≠ "/api//health".data :=
  ⟨rfl, by decide, by decide⟩

/-- C8 (amended): with no health-check override, initialisation registers the
health-check handler on the GET subrouter at `{apiPrefix}/{healthPath}` (the
code formats an extra `/` before the normalized health path), and that
handler writes the JSON body `{"ok":true}` (newline-terminated) with
status 200. -/
theorem claim_C8_amended (config : Config) (sm : ServerModel)
    (hhc : config.hc = healthCheck) (h : Server.init config = Except.ok sm) :
    (⟨config.apiPfx ++ '/' :: config.healthPath, RegHandler.funcH healthCheck⟩ :
        RouteEntry) ∈ sm.router.getRoutes ∧
      healthCheck.status = 200 ∧ healthCheck.body = "\x7b\"ok\":true\x7d\n".data := by
  cases hr : registerSpecs config.apiPfx config.specs [] [] [] with
  | error e =>
      simp only [Server.init, hr] at h
      exact absurd h (by simp)
  | ok gp =>
      simp only [Server.init, hr] at h
      injection h with h2
      subst h2
      refine ⟨?_, rfl, rfl⟩
      rw [← hhc]
      exact List.mem_append_right _ (List.mem_singleton.mpr rfl)

/-- Witness for C8 (amended) at the default configuration. -/
theorem claim_C8_amended_witness :
    (⟨NewConfig.apiPfx ++ '/' :: NewConfig.healthPath, RegHandler.funcH healthCheck⟩ :
        RouteEntry) ∈ smW.router.getRoutes ∧
      healthCheck.status = 200 ∧ healthCheck.body = "\x7b\"ok\":true\x7d\n".data :=
  claim_C8_amended cfgW smW rfl rfl

end Apiserver
